import Mathlib

/-!
Shallow embedding of `src/components/modules/tools.ts` (the Tools module of the
editor): configuration validation, merging of built-in tools, the sequential
preparation scheduler, the available/unavailable registry, and the derived
cached views (`inline`, `block`, `getInternal`) plus `destroy`.

Maps held by the module (`toolsAvailable`, `toolsUnavailable`, the normalized
config) are embedded as insertion-ordered association lists, matching the
iteration order of JavaScript `Map`s and plain objects.  JavaScript `Map`
identity (needed to talk about the caching of the view getters) is embedded by
tagging each `new Map(...)` allocation with a fresh number drawn from an
allocation counter threaded through the state.
-/

set_option autoImplicit false

namespace EditorTools

/-- `ToolType` enum from the bottom of `tools.ts` (order matters: TypeScript
assigns `Block = 0`, `Inline = 1`, `Tune = 2`). -/
inductive ToolType where
  | Block
  | Inline
  | Tune
deriving DecidableEq, Repr

/-- Numeric value of the enum member as emitted by TypeScript; relevant
because `getInternal` tests its `type` argument for JavaScript truthiness. -/
def ToolType.toNum : ToolType → Nat
  | .Block => 0
  | .Inline => 1
  | .Tune => 2

/-- A plugin constructor as observed by this module: its static type marker,
which of the duck-typed instance methods its instances expose, whether
instances expose a `reset` hook, and its optional static `prepare` hook.
A present hook is embedded by its settled outcome: `some true` resolves,
`some false` throws or rejects, `none` means no `prepare` property. -/
structure PluginClass where
  type : ToolType
  hasRender : Bool
  hasSurround : Bool
  hasCheckState : Bool
  hasReset : Bool
  prepareHook : Option Bool
deriving DecidableEq, Repr

/-- The `class` field of a tool-settings object.  A `class` value that is
present but not invocable behaves like a missing one for `_.isFunction`
checks, so both are embedded as `missing`. -/
inductive ClassField where
  | missing
  | fn (c : PluginClass)
deriving DecidableEq, Repr

/-- A value of the user `tools` configuration: either a bare constructor
(a JavaScript function) or a settings object with an optional `class` field
and an optional `isInternal` field (`none` = field absent).  Extra settings
fields are passed through verbatim and play no role in the claims, so they
are not tracked. -/
inductive ToolConfigValue where
  | ctor (c : PluginClass)
  | obj (cls : ClassField) (isInternal : Option Bool)
deriving DecidableEq, Repr

/-- `_.isFunction(tool)`: true exactly for a bare constructor value. -/
def jsIsFunction : ToolConfigValue → Bool
  | .ctor _ => true
  | .obj _ _ => false

/-- `_.isFunction((tool as ToolSettings).class)`: a bare constructor has no
`class` own-property, so this is true only for a settings object whose
`class` field is an invocable function. -/
def classFieldIsFunction : ToolConfigValue → Bool
  | .ctor _ => false
  | .obj (.fn _) _ => true
  | .obj .missing _ => false

/-- Ordered association-list lookup (JavaScript `Map.get` / property read). -/
def mapGet {α : Type} : List (String × α) → String → Option α
  | [], _ => none
  | (k0, v) :: rest, k => if k0 = k then some v else mapGet rest k

/-- JavaScript `Map.has` / the `in` operator. -/
def mapHas {α : Type} (m : List (String × α)) (k : String) : Bool :=
  (mapGet m k).isSome

/-- JavaScript `Map.set`: update in place when the key exists, otherwise
append at the end (insertion order preserved). -/
def mapSet {α : Type} : List (String × α) → String → α → List (String × α)
  | [], k, v => [(k, v)]
  | (k0, v0) :: rest, k, v =>
    if k0 = k then (k, v) :: rest else (k0, v0) :: mapSet rest k v

/-- Modelled from the spec: the built-in plugin classes (`BoldInlineTool`,
`ItalicInlineTool`, `LinkInlineTool`, `Paragraph`, `Stub`) are imported from
outside `src/`.  Per spec §6 the first three are Inline tools implementing
`render`/`surround`/`checkState`, paragraph and stub are Block tools, and per
§8 P4 all five settle successfully, i.e. none has a failing static `prepare`
hook (none declares one). -/
def boldClass : PluginClass := ⟨.Inline, true, true, true, false, none⟩

/-- Modelled from the spec: see `boldClass`. -/
def italicClass : PluginClass := ⟨.Inline, true, true, true, false, none⟩

/-- Modelled from the spec: see `boldClass`. -/
def linkClass : PluginClass := ⟨.Inline, true, true, true, false, none⟩

/-- Modelled from the spec: see `boldClass`. -/
def paragraphClass : PluginClass := ⟨.Block, true, false, false, false, none⟩

/-- Modelled from the spec: see `boldClass`. -/
def stubClass : PluginClass := ⟨.Block, true, false, false, false, none⟩

/-- The `internalTools` getter: the fixed object of built-in tool
declarations, in source order, each flagged `isInternal: true`.
(`paragraph` additionally sets `inlineToolbar: true`, an untracked field.) -/
def internalTools : List (String × ToolConfigValue) :=
  [("bold", .obj (.fn boldClass) (some true)),
   ("italic", .obj (.fn italicClass) (some true)),
   ("link", .obj (.fn linkClass) (some true)),
   ("paragraph", .obj (.fn paragraphClass) (some true)),
   ("stub", .obj (.fn stubClass) (some true))]

/-- `toolName in this.internalTools`: membership among the built-in names. -/
def isInternalToolName (n : String) : Bool :=
  mapHas internalTools n

/-- The errors `prepare()` can surface synchronously, by construction site:
`invalidTool` is the `Error` thrown by `validateTools`; `cantStartWithoutTools`
is the `Error('Can't start without tools')` of the emptiness guard;
`classFieldAccess` is the TypeError raised inside
`getListOfPrepareFunctions` when `settings.class.prepare` dereferences an
undefined `class`. -/
inductive PrepareError where
  | invalidTool (toolName : String)
  | cantStartWithoutTools
  | classFieldAccess (toolName : String)
deriving DecidableEq, Repr

/-- `validateTools`: walks the user `tools` config in insertion order.
A name matching a built-in makes the whole loop `return` (the early-exit
quirk).  A non-built-in entry that is neither an invocable constructor nor an
object with an invocable `class` throws an error naming the tool; otherwise
the walk continues. -/
def Tools.validateTools : List (String × ToolConfigValue) → Except PrepareError Unit
  | [] => .ok ()
  | (toolName, tool) :: rest =>
    if isInternalToolName toolName then .ok ()
    else if !jsIsFunction tool && !classFieldIsFunction tool then
      .error (.invalidTool toolName)
    else Tools.validateTools rest

/-- Modelled from the spec: `_.deepMerge` lives in `components/utils.ts`,
which is not under `src/`.  Per spec §4.1 built-in declarations are
deep-merged as defaults underneath same-named user declarations: a user
settings object overrides individual fields (a field it omits keeps the
built-in value), while a bare constructor value replaces the entry
wholesale (a function is not an object, so the recursion assigns it). -/
def mergeToolValue (base user : ToolConfigValue) : ToolConfigValue :=
  match base, user with
  | .obj bCls bInt, .obj uCls uInt =>
    .obj (match uCls with
          | .missing => bCls
          | .fn c => .fn c)
         (match uInt with
          | none => bInt
          | some b => some b)
  | _, u => u

/-- Modelled from the spec: `_.deepMerge({}, base, user)` key order follows
JavaScript object semantics — keys of `base` first (user values merged onto
same-named ones in place), then keys only `user` has, in their order. -/
def deepMergeTools (base user : List (String × ToolConfigValue)) :
    List (String × ToolConfigValue) :=
  (base.map (fun e =>
    match mapGet user e.1 with
    | some uv => (e.1, mergeToolValue e.2 uv)
    | none => e))
  ++ user.filter (fun e => !mapHas base e.1)

/-- An entry of the normalized config produced by `prepareConfig`:
the `class` field (Lean keyword, hence `cls`) and the optional
`isInternal` flag; other settings fields are untracked. -/
structure NormalizedSettings where
  cls : ClassField
  isInternal : Option Bool
deriving DecidableEq, Repr

/-- `prepareConfig`: an object entry is kept as-is, a bare constructor is
wrapped as `{ class: tool }`. -/
def Tools.prepareConfig (tools : List (String × ToolConfigValue)) :
    List (String × NormalizedSettings) :=
  tools.map (fun e =>
    match e.2 with
    | .obj cls isInt => (e.1, ⟨cls, isInt⟩)
    | .ctor c => (e.1, ⟨.fn c, none⟩))

/-- An entry of the preparation sequence: the tool name plus the settled
outcome of its task.  `getListOfPrepareFunctions` substitutes a no-op (which
always succeeds) when the class declares no `prepare` hook, so the outcome
already folds that substitution in. -/
structure PrepareTask where
  toolName : String
  succeeds : Bool
deriving DecidableEq, Repr

/-- Outcome of running the task built for a class:
`_.isFunction(settings.class.prepare) ? settings.class.prepare : () => {}` —
no hook means the no-op stand-in, which always succeeds. -/
def hookSucceeds (c : PluginClass) : Bool :=
  match c.prepareHook with
  | none => true
  | some b => b

/-- `getListOfPrepareFunctions`: one task per config entry, in order.
Reading `settings.class.prepare` when `class` is undefined raises a
TypeError synchronously while the list is being built (before any hook
runs), which aborts `prepare()`. -/
def Tools.getListOfPrepareFunctions :
    List (String × NormalizedSettings) → Except PrepareError (List PrepareTask)
  | [] => .ok []
  | (toolName, settings) :: rest =>
    match settings.cls with
    | .missing => .error (.classFieldAccess toolName)
    | .fn c =>
      match Tools.getListOfPrepareFunctions rest with
      | .error e => .error e
      | .ok tasks => .ok (⟨toolName, hookSucceeds c⟩ :: tasks)

/-- A constructed tool wrapper as held in the registry maps: name, variant,
internal flag and the duck-typed instance capabilities the module probes. -/
structure ToolClass where
  name : String
  type : ToolType
  isInternal : Bool
  hasRender : Bool
  hasSurround : Bool
  hasCheckState : Bool
  hasReset : Bool
deriving DecidableEq, Repr

/-- Modelled from the spec: `ToolsFactory` (`components/tools/factory`) is
not under `src/`; per spec §2/§4.4 `produce(name)` builds one wrapper
instance from the normalized entry for `name`: the variant and instance
methods come from the class, `isInternal` from the settings (absent means
false).  The fallback rows are unreachable in the `prepare()` flow: every
task name is a config key and `getListOfPrepareFunctions` has already
rejected entries without an invocable class. -/
def factoryGet (cfg : List (String × NormalizedSettings)) (name : String) : ToolClass :=
  match mapGet cfg name with
  | some ns =>
    match ns.cls with
    | .fn c =>
      ⟨name, c.type, ns.isInternal.getD false,
       c.hasRender, c.hasSurround, c.hasCheckState, c.hasReset⟩
    | .missing => ⟨name, .Block, false, false, false, false, false⟩
  | none => ⟨name, .Block, false, false, false, false, false⟩

/-- A `Map` returned by one of the view getters, tagged with the allocation
number of its `new Map(...)` so that reference identity is expressible. -/
structure ViewMap where
  allocId : Nat
  entries : List (String × ToolClass)
deriving DecidableEq, Repr

/-- The mutable state of the Tools module instance: the two registry maps,
the two view caches (`null` at construction), the normalized config handed
to the factory, and the allocation counter for `Map` identities. -/
structure ToolsState where
  toolsAvailable : List (String × ToolClass)
  toolsUnavailable : List (String × ToolClass)
  inlineToolsCache : Option ViewMap
  blockToolsCache : Option ViewMap
  factoryConfig : List (String × NormalizedSettings)
  nextAllocId : Nat
deriving DecidableEq, Repr

/-- The state of a freshly constructed module: empty maps, `null` caches. -/
def initState : ToolsState :=
  ⟨[], [], none, none, [], 0⟩

/-- `success` callback: `toolsAvailable.set(toolName, factory.get(toolName))`. -/
def Tools.success (s : ToolsState) (toolName : String) : ToolsState :=
  { s with toolsAvailable :=
      mapSet s.toolsAvailable toolName (factoryGet s.factoryConfig toolName) }

/-- `fallback` callback: `toolsUnavailable.set(toolName, factory.get(toolName))`. -/
def Tools.fallback (s : ToolsState) (toolName : String) : ToolsState :=
  { s with toolsUnavailable :=
      mapSet s.toolsUnavailable toolName (factoryGet s.factoryConfig toolName) }

/-- Modelled from the spec: `_.sequence` lives in `components/utils.ts`,
which is not under `src/`.  Per spec §4.2 the tasks run strictly one after
another in list order; a task that settles successfully routes its data to
`onSuccess`, a throwing/rejecting task routes to `onFailure`, and the
failure is contained — the remaining tasks still run and the overall
promise resolves. -/
def Tools.sequence : List PrepareTask → ToolsState → ToolsState
  | [], s => s
  | t :: rest, s =>
    Tools.sequence rest
      (if t.succeeds then Tools.success s t.toolName else Tools.fallback s t.toolName)

/-- `prepare()`: validate the raw user config, merge the built-ins
underneath it (`this.config.tools = _.deepMerge({}, this.internalTools,
this.config.tools)`), guard against an empty effective map (after the
assignment `this.config` always has an own `tools` property, so only the
emptiness half of the guard is live), normalize, hand the config to the
factory, build the task list, and run the sequence; an empty task list
short-circuits with an already-resolved promise. -/
def Tools.prepare (userTools : List (String × ToolConfigValue)) (s : ToolsState) :
    Except PrepareError ToolsState :=
  match Tools.validateTools userTools with
  | .error e => .error e
  | .ok _ =>
    let mergedTools := deepMergeTools internalTools userTools
    if mergedTools.length = 0 then
      .error .cantStartWithoutTools
    else
      let config := Tools.prepareConfig mergedTools
      let s1 : ToolsState := { s with factoryConfig := config }
      match Tools.getListOfPrepareFunctions config with
      | .error e => .error e
      | .ok sequenceData =>
        if sequenceData.length = 0 then .ok s1
        else .ok (Tools.sequence sequenceData s1)

/-- The required inline methods list from the `inline` getter. -/
def inlineToolRequiredMethods : List String := ["render", "surround", "checkState"]

/-- `tool.instance()[method]` truthiness for the three probed names. -/
def instanceHasMethod (tool : ToolClass) (m : String) : Bool :=
  if m = "render" then tool.hasRender
  else if m = "surround" then tool.hasSurround
  else if m = "checkState" then tool.hasCheckState
  else false

/-- The filter body of the `inline` getter: wrong variant is rejected
outright; a declared Inline tool with a non-empty list of not-implemented
required methods is logged and rejected; otherwise accepted. -/
def isValidInlineTool (tool : ToolClass) : Bool :=
  if tool.type != ToolType.Inline then false
  else
    let notImplementedMethods :=
      inlineToolRequiredMethods.filter (fun m => !instanceHasMethod tool m)
    if notImplementedMethods.length != 0 then false
    else true

/-- The entries the `inline` getter computes from `available` on a cache miss. -/
def computeInlineEntries (avail : List (String × ToolClass)) :
    List (String × ToolClass) :=
  avail.filter (fun e => isValidInlineTool e.2)

/-- The `inline` getter: returns the cached map when `_inlineTools` is set
(any `Map`, even an empty one, is truthy), otherwise filters `available`,
caches the freshly allocated map and returns it. -/
def Tools.inline (s : ToolsState) : ViewMap × ToolsState :=
  match s.inlineToolsCache with
  | some m => (m, s)
  | none =>
    let m : ViewMap := ⟨s.nextAllocId, computeInlineEntries s.toolsAvailable⟩
    (m, { s with inlineToolsCache := some m, nextAllocId := s.nextAllocId + 1 })

/-- The entries the `block` getter computes from `available` on a cache miss. -/
def computeBlockEntries (avail : List (String × ToolClass)) :
    List (String × ToolClass) :=
  avail.filter (fun e => e.2.type == ToolType.Block)

/-- The `block` getter, with the same cache-then-compute shape as `inline`. -/
def Tools.block (s : ToolsState) : ViewMap × ToolsState :=
  match s.blockToolsCache with
  | some m => (m, s)
  | none =>
    let m : ViewMap := ⟨s.nextAllocId, computeBlockEntries s.toolsAvailable⟩
    (m, { s with blockToolsCache := some m, nextAllocId := s.nextAllocId + 1 })

/-- `getInternal(type?)`: filters `available` by the `isInternal` flag, then
— only when the argument is JavaScript-truthy, and `ToolType.Block`
compiles to the falsy `0` — additionally by variant; the result is a fresh
`new Map(tools)` on every call (no cache field exists for this view). -/
def Tools.getInternal (s : ToolsState) (ty : Option ToolType) : ViewMap × ToolsState :=
  let tools := s.toolsAvailable.filter (fun e => e.2.isInternal)
  let tools :=
    match ty with
    | some t => if t.toNum != 0 then tools.filter (fun e => e.2.type == t) else tools
    | none => tools
  (⟨s.nextAllocId, tools⟩, { s with nextAllocId := s.nextAllocId + 1 })

/-- `Object.values` applied to a JavaScript `Map` instance returns the values
of the object's own enumerable string-keyed properties.  A `Map` stores its
entries in internal slots, not as own properties, so the result is always the
empty array, whatever the map contains. -/
def jsObjectValuesOfMap (_m : List (String × ToolClass)) : List ToolClass := []

/-- `destroy()`: `Object.values(this.available).forEach(async tool => { if
(_.isFunction(tool.reset)) await tool.reset(); })` — embedded as the list of
tool names whose `reset` hook the loop actually invokes. -/
def Tools.destroy (s : ToolsState) : List String :=
  ((jsObjectValuesOfMap s.toolsAvailable).filter (fun t => t.hasReset)).map
    (fun t => t.name)

/-- An entry passes `validateTools` when it is a bare constructor or an
object with an invocable `class` (the negation of the throwing condition). -/
def validEntry (v : ToolConfigValue) : Bool :=
  jsIsFunction v || classFieldIsFunction v

/-! ### Association-list lemmas -/

theorem mapGet_set_self {α : Type} (m : List (String × α)) (k : String) (v : α) :
    mapGet (mapSet m k v) k = some v := by
  induction m with
  | nil => simp [mapSet, mapGet]
  | cons hd tl ih =>
    obtain ⟨k0, v0⟩ := hd
    by_cases h : k0 = k
    · simp [mapSet, mapGet, h]
    · simp [mapSet, mapGet, h, ih]

theorem mapGet_set_ne {α : Type} (m : List (String × α)) (k : String) (v : α)
    (k1 : String) (h : k1 ≠ k) :
    mapGet (mapSet m k v) k1 = mapGet m k1 := by
  have h2 : ¬(k = k1) := fun hh => h hh.symm
  induction m with
  | nil => simp [mapSet, mapGet, h2]
  | cons hd tl ih =>
    obtain ⟨k0, v0⟩ := hd
    by_cases h0 : k0 = k
    · subst h0
      simp [mapSet, mapGet, h2]
    · simp only [mapSet, if_neg h0]
      by_cases h1 : k0 = k1
      · simp [mapGet, h1]
      · simp [mapGet, h1, ih]

theorem mapHas_set_self {α : Type} (m : List (String × α)) (k : String) (v : α) :
    mapHas (mapSet m k v) k = true := by
  simp [mapHas, mapGet_set_self]

theorem mapHas_set_ne {α : Type} (m : List (String × α)) (k : String) (v : α)
    (k1 : String) (h : k1 ≠ k) :
    mapHas (mapSet m k v) k1 = mapHas m k1 := by
  simp [mapHas, mapGet_set_ne m k v k1 h]

theorem mapHas_iff_mem_names {α : Type} (m : List (String × α)) (k : String) :
    mapHas m k = true ↔ k ∈ m.map Prod.fst := by
  induction m with
  | nil => simp [mapHas, mapGet]
  | cons hd tl ih =>
    obtain ⟨k0, v0⟩ := hd
    by_cases h : k0 = k
    · simp [mapHas, mapGet, h]
    · simp [mapHas, mapGet, h, Ne.symm h] at ih ⊢
      exact ih

theorem internalTools_names :
    internalTools.map Prod.fst = ["bold", "italic", "link", "paragraph", "stub"] := rfl

theorem isInternalToolName_false_iff (n : String) :
    isInternalToolName n = false ↔
      n ∉ (["bold", "italic", "link", "paragraph", "stub"] : List String) := by
  rw [← internalTools_names]
  constructor
  · intro h hmem
    have := (mapHas_iff_mem_names internalTools n).mpr hmem
    rw [isInternalToolName] at h
    rw [h] at this
    cases this
  · intro h
    rw [isInternalToolName]
    by_cases hb : mapHas internalTools n = true
    · exact absurd ((mapHas_iff_mem_names internalTools n).mp hb) h
    · simpa using hb

/-! ### Shape of the names through normalization and task building -/

theorem prepareConfig_names (l : List (String × ToolConfigValue)) :
    (Tools.prepareConfig l).map Prod.fst = l.map Prod.fst := by
  induction l with
  | nil => rfl
  | cons e rest ih =>
    obtain ⟨n, v⟩ := e
    cases v <;> simp [Tools.prepareConfig, ih] <;>
      simpa [Tools.prepareConfig] using ih

theorem getListOfPrepareFunctions_ok_names
    (cfg : List (String × NormalizedSettings)) (tasks : List PrepareTask)
    (h : Tools.getListOfPrepareFunctions cfg = .ok tasks) :
    tasks.map PrepareTask.toolName = cfg.map Prod.fst := by
  induction cfg generalizing tasks with
  | nil =>
    simp [Tools.getListOfPrepareFunctions] at h
    subst h
    rfl
  | cons e rest ih =>
    obtain ⟨n, settings⟩ := e
    cases hc : settings.cls with
    | missing => simp [Tools.getListOfPrepareFunctions, hc] at h
    | fn c =>
      cases hr : Tools.getListOfPrepareFunctions rest with
      | error e0 => simp [Tools.getListOfPrepareFunctions, hc, hr] at h
      | ok ts =>
        simp [Tools.getListOfPrepareFunctions, hc, hr] at h
        subst h
        simp [ih ts hr]

theorem deepMergeTools_names (base user : List (String × ToolConfigValue)) :
    (deepMergeTools base user).map Prod.fst =
      base.map Prod.fst ++ (user.filter (fun e => !mapHas base e.1)).map Prod.fst := by
  rw [deepMergeTools, List.map_append]
  congr 1
  induction base with
  | nil => rfl
  | cons e rest ih =>
    cases hg : mapGet user e.1 <;> simp [hg, ih]

theorem deepMergeTools_length_pos (user : List (String × ToolConfigValue)) :
    0 < (deepMergeTools internalTools user).length := by
  have h := congrArg List.length (deepMergeTools_names internalTools user)
  rw [List.length_map] at h
  rw [h, internalTools_names]
  simp

theorem deepMergeTools_nodup (user : List (String × ToolConfigValue))
    (hu : (user.map Prod.fst).Nodup) :
    ((deepMergeTools internalTools user).map Prod.fst).Nodup := by
  rw [deepMergeTools_names]
  rw [List.nodup_append]
  refine ⟨by rw [internalTools_names]; decide, ?_, ?_⟩
  · exact List.Nodup.sublist (List.Sublist.map Prod.fst (List.filter_sublist user)) hu
  · intro n hn hn2
    obtain ⟨e, he, rfl⟩ := List.mem_map.mp hn2
    have := List.of_mem_filter he
    have hb := (mapHas_iff_mem_names internalTools e.1).mpr hn
    rw [hb] at this
    cases this

/-! ### The preparation sequence: state preservation and bucketing -/

theorem sequence_preserves (tasks : List PrepareTask) (s : ToolsState) :
    (Tools.sequence tasks s).inlineToolsCache = s.inlineToolsCache ∧
    (Tools.sequence tasks s).blockToolsCache = s.blockToolsCache ∧
    (Tools.sequence tasks s).factoryConfig = s.factoryConfig ∧
    (Tools.sequence tasks s).nextAllocId = s.nextAllocId := by
  induction tasks generalizing s with
  | nil => simp [Tools.sequence]
  | cons t rest ih =>
    cases h : t.succeeds <;>
      simp [Tools.sequence, h, Tools.success, Tools.fallback, ih]

theorem sequence_not_mem (tasks : List PrepareTask) (s : ToolsState) (n : String)
    (h : n ∉ tasks.map PrepareTask.toolName) :
    mapHas (Tools.sequence tasks s).toolsAvailable n = mapHas s.toolsAvailable n ∧
    mapHas (Tools.sequence tasks s).toolsUnavailable n = mapHas s.toolsUnavailable n := by
  induction tasks generalizing s with
  | nil => simp [Tools.sequence]
  | cons t rest ih =>
    simp only [List.map_cons, List.mem_cons, not_or] at h
    obtain ⟨hne, hrest⟩ := h
    cases hs : t.succeeds <;>
      simp [Tools.sequence, hs, ih _ hrest, Tools.success, Tools.fallback,
        mapHas_set_ne _ _ _ _ hne]

theorem sequence_buckets (tasks : List PrepareTask) (s : ToolsState)
    (t : PrepareTask)
    (hnodup : (tasks.map PrepareTask.toolName).Nodup)
    (hmem : t ∈ tasks) :
    mapHas (Tools.sequence tasks s).toolsAvailable t.toolName =
      (mapHas s.toolsAvailable t.toolName || t.succeeds) ∧
    mapHas (Tools.sequence tasks s).toolsUnavailable t.toolName =
      (mapHas s.toolsUnavailable t.toolName || !t.succeeds) := by
  induction tasks generalizing s with
  | nil => cases hmem
  | cons t0 rest ih =>
    rw [List.map_cons, List.nodup_cons] at hnodup
    obtain ⟨hhd, hrest⟩ := hnodup
    rcases List.mem_cons.mp hmem with rfl | hmem0
    · have hnm : t.toolName ∉ rest.map PrepareTask.toolName := hhd
      cases hs : t.succeeds <;>
        simp [Tools.sequence, hs, (sequence_not_mem rest _ t.toolName hnm).1,
          (sequence_not_mem rest _ t.toolName hnm).2,
          Tools.success, Tools.fallback, mapHas_set_self]
    · have hne : t.toolName ≠ t0.toolName := by
        intro he
        exact hhd (he ▸ List.mem_map.mpr ⟨t, hmem0, rfl⟩)
      cases hs : t0.succeeds <;>
        simp [Tools.sequence, hs, ih _ hrest hmem0, Tools.success, Tools.fallback,
          mapHas_set_ne _ _ _ _ hne]

/-! ### Inverting a successful `prepare()` -/

theorem validateTools_error_shape (cfg : List (String × ToolConfigValue))
    (e : PrepareError) (h : Tools.validateTools cfg = .error e) :
    ∃ n, e = .invalidTool n := by
  induction cfg with
  | nil => simp [Tools.validateTools] at h
  | cons hd rest ih =>
    obtain ⟨n, v⟩ := hd
    by_cases hi : isInternalToolName n
    · simp [Tools.validateTools, hi] at h
    · by_cases hv : (!jsIsFunction v && !classFieldIsFunction v) = true
      · simp [Tools.validateTools, hi, hv] at h
        exact ⟨n, h.symm⟩
      · simp [Tools.validateTools, hi, hv] at h
        exact ih h

theorem getListOfPrepareFunctions_error_shape
    (cfg : List (String × NormalizedSettings)) (e : PrepareError)
    (h : Tools.getListOfPrepareFunctions cfg = .error e) :
    ∃ n, e = .classFieldAccess n := by
  induction cfg generalizing e with
  | nil => simp [Tools.getListOfPrepareFunctions] at h
  | cons hd rest ih =>
    obtain ⟨n, settings⟩ := hd
    cases hc : settings.cls with
    | missing =>
      simp [Tools.getListOfPrepareFunctions, hc] at h
      exact ⟨n, h.symm⟩
    | fn c =>
      cases hr : Tools.getListOfPrepareFunctions rest with
      | error e0 =>
        simp [Tools.getListOfPrepareFunctions, hc, hr] at h
        subst h
        exact ih _ hr
      | ok ts => simp [Tools.getListOfPrepareFunctions, hc, hr] at h

theorem prepare_ok_inversion (u : List (String × ToolConfigValue))
    (s s1 : ToolsState) (h : Tools.prepare u s = .ok s1) :
    ∃ tasks,
      Tools.getListOfPrepareFunctions
        (Tools.prepareConfig (deepMergeTools internalTools u)) = .ok tasks ∧
      tasks.map PrepareTask.toolName =
        (deepMergeTools internalTools u).map Prod.fst ∧
      s1 = Tools.sequence tasks
        { s with factoryConfig := Tools.prepareConfig (deepMergeTools internalTools u) } := by
  rw [Tools.prepare] at h
  cases hv : Tools.validateTools u with
  | error e => rw [hv] at h; cases h
  | ok _ =>
    rw [hv] at h
    simp only [] at h
    rw [if_neg (Nat.pos_iff_ne_zero.mp (deepMergeTools_length_pos u))] at h
    cases hg : Tools.getListOfPrepareFunctions
        (Tools.prepareConfig (deepMergeTools internalTools u)) with
    | error e => rw [hg] at h; cases h
    | ok tasks =>
      rw [hg] at h
      have hnames : tasks.map PrepareTask.toolName =
          (deepMergeTools internalTools u).map Prod.fst := by
        rw [getListOfPrepareFunctions_ok_names _ _ hg, prepareConfig_names]
      have hlen : tasks.length ≠ 0 := by
        have := congrArg List.length hnames
        simp only [List.length_map] at this
        rw [this]
        exact Nat.pos_iff_ne_zero.mp
          (by simpa using deepMergeTools_length_pos u)
      simp only [] at h
      rw [if_neg hlen] at h
      exact ⟨tasks, rfl, hnames, (Except.ok.inj h).symm⟩

/-! ### Claims -/

/-- C1: for every name N of the merged configuration, after `prepare()`
settles successfully from a fresh module state, exactly one of
`available.has(N)` and `unavailable.has(N)` is true. -/
theorem c1_partition (userTools : List (String × ToolConfigValue))
    (hnodup : (userTools.map Prod.fst).Nodup)
    (s1 : ToolsState) (hp : Tools.prepare userTools initState = .ok s1) :
    ∀ n ∈ (deepMergeTools internalTools userTools).map Prod.fst,
      Bool.xor (mapHas s1.toolsAvailable n) (mapHas s1.toolsUnavailable n) = true := by
  obtain ⟨tasks, hg, hnames, hs1⟩ := prepare_ok_inversion userTools initState s1 hp
  intro n hn
  have hmemtasks : n ∈ tasks.map PrepareTask.toolName := by rw [hnames]; exact hn
  obtain ⟨t, ht, htn⟩ := List.mem_map.mp hmemtasks
  have hnod : (tasks.map PrepareTask.toolName).Nodup := by
    rw [hnames]; exact deepMergeTools_nodup userTools hnodup
  have hb := sequence_buckets tasks
    { initState with factoryConfig :=
        Tools.prepareConfig (deepMergeTools internalTools userTools) } t hnod ht
  subst htn
  rw [hs1, hb.1, hb.2]
  cases hts : t.succeeds <;> simp [hts, initState, mapHas, mapGet]

/-- Result of `prepare()` on the empty user configuration, for concrete
instantiations. -/
def emptyPrepState : ToolsState :=
  (Tools.prepare [] initState).toOption.getD initState

/-- Witness for C1: the partition at the concrete name `bold` after an
empty-configuration preparation. -/
theorem c1_partition_witness :
    Bool.xor (mapHas emptyPrepState.toolsAvailable "bold")
      (mapHas emptyPrepState.toolsUnavailable "bold") = true :=
  c1_partition [] (by decide) emptyPrepState (by rfl) "bold" (by decide)

/-- C4: with an empty user configuration, after `prepare()` settles the
available map holds exactly the five built-in names `bold`, `italic`,
`link`, `paragraph`, `stub`, in order, each flagged internal, and nothing
lands in `unavailable`. -/
theorem c4_empty_config_builtins :
    ∃ s1, Tools.prepare [] initState = .ok s1 ∧
      s1.toolsAvailable.map Prod.fst = ["bold", "italic", "link", "paragraph", "stub"] ∧
      s1.toolsAvailable.all (fun e => e.2.isInternal) = true ∧
      s1.toolsUnavailable = [] :=
  ⟨emptyPrepState, by rfl, by decide, by decide, by rfl⟩

/-- Is the argument the thrown `Can't start without tools` startup error? -/
def isCantStartError : Except PrepareError ToolsState → Bool
  | .error .cantStartWithoutTools => true
  | _ => false

/-- Did the preparation settle by resolving (not rejecting)? -/
def exceptResolved : Except PrepareError ToolsState → Bool
  | .ok _ => true
  | .error _ => false

/-- C6 counterexample: the claim predicts that a user configuration that
supplies nothing (and hence clears nothing) makes `prepare()` throw
`Can't start without tools`; in fact `prepare()` on the empty user
configuration resolves without any error, because the merge re-adds the
five built-ins before the emptiness guard runs. -/
theorem c6_counterexample : exceptResolved (Tools.prepare [] initState) = true := by rfl

/-- C6 amended: the emptiness guard is unreachable — after merging, the
effective tools map always contains the five built-in names (its length is
positive for every user configuration), so `prepare()` never throws
`Can't start without tools`, from any starting state. -/
theorem c6_amended_guard_unreachable (u : List (String × ToolConfigValue))
    (s : ToolsState) :
    0 < (deepMergeTools internalTools u).length ∧
    isCantStartError (Tools.prepare u s) = false := by
  refine ⟨deepMergeTools_length_pos u, ?_⟩
  rw [Tools.prepare]
  cases hv : Tools.validateTools u with
  | error e =>
    obtain ⟨n, rfl⟩ := validateTools_error_shape u e hv
    rfl
  | ok _ =>
    simp only []
    rw [if_neg (Nat.pos_iff_ne_zero.mp (deepMergeTools_length_pos u))]
    cases hg : Tools.getListOfPrepareFunctions
        (Tools.prepareConfig (deepMergeTools internalTools u)) with
    | error e =>
      obtain ⟨n, rfl⟩ := getListOfPrepareFunctions_error_shape _ e hg
      rfl
    | ok tasks =>
      simp only []
      by_cases h0 : tasks.length = 0 <;> simp [h0, isCantStartError]

/-- The failing input for C7: a registry whose available map holds one tool
instance exposing a `reset` hook. -/
def resettableTool : ToolClass :=
  ⟨"resettable", .Block, false, true, false, false, true⟩

/-- C7 (code bug): `destroy()` is supposed to invoke the reset hook of every
available instance exposing one, but it iterates
`Object.values(this.available)` with `available` a `Map`, which yields the
empty array — so even with a resettable tool available it invokes zero
reset hooks. -/
theorem c7_destroy_resets_nothing :
    resettableTool.hasReset = true ∧
    Tools.destroy
      { initState with toolsAvailable := [("resettable", resettableTool)] } = [] :=
  ⟨rfl, rfl⟩

/-- C8: the `inline` and `block` getters are memoized — from any registry
state, the second call returns the very same cached `Map` (same allocation,
hence reference-stable) and leaves the state untouched (no recomputation
side effects): the (value, state) pair of the second call equals that of
the first. -/
theorem c8_views_memoized (s : ToolsState) :
    Tools.inline (Tools.inline s).2 = Tools.inline s ∧
    Tools.block (Tools.block s).2 = Tools.block s := by
  constructor
  · cases hc : s.inlineToolsCache <;> simp [Tools.inline, hc]
  · cases hc : s.blockToolsCache <;> simp [Tools.block, hc]

/-- Registry state exercising `getInternal`: one internal tool available,
allocation counter at 0. -/
def internalViewDemoState : ToolsState :=
  { initState with toolsAvailable :=
      [("bold", ⟨"bold", .Inline, true, true, true, true, false⟩)] }

/-- C9 counterexample: `getInternal` is not a memoized view — two successive
calls with the same (absent) type argument return `Map`s allocated at 0 and
at 1 respectively: equal contents, but distinct allocations, so not the
same cached mapping instance. -/
theorem c9_counterexample :
    (Tools.getInternal internalViewDemoState none).1.allocId = 0 ∧
    (Tools.getInternal (Tools.getInternal internalViewDemoState none).2 none).1.allocId = 1 ∧
    (Tools.getInternal (Tools.getInternal internalViewDemoState none).2 none).1.entries =
      (Tools.getInternal internalViewDemoState none).1.entries :=
  ⟨rfl, rfl, rfl⟩

/-- C9 amended: unlike `inline`/`block`, `getInternal` has no cache — every
call recomputes the filter and returns a freshly allocated `Map`; repeated
calls with the same type argument return maps with identical entries but a
strictly larger allocation number. -/
theorem c9_amended_fresh_map_each_call (s : ToolsState) (ty : Option ToolType) :
    (Tools.getInternal (Tools.getInternal s ty).2 ty).1.entries =
      (Tools.getInternal s ty).1.entries ∧
    (Tools.getInternal (Tools.getInternal s ty).2 ty).1.allocId =
      (Tools.getInternal s ty).1.allocId + 1 := by
  cases ty with
  | none => simp [Tools.getInternal]
  | some t => cases h : (t.toNum != 0) <;> simp [Tools.getInternal, h]

/-! ### The inline filter predicate -/

theorem isValidInlineTool_iff (t : ToolClass) :
    isValidInlineTool t = true ↔
      (t.type = ToolType.Inline ∧ t.hasRender = true ∧ t.hasSurround = true ∧
       t.hasCheckState = true) := by
  obtain ⟨nm, ty, int, r, su, cs, rs⟩ := t
  cases ty <;> cases r <;> cases su <;> cases cs <;>
    simp [isValidInlineTool, inlineToolRequiredMethods, instanceHasMethod]

/-- C3: among the available tools, a tool belongs to the `inline` view (read
on an unfilled cache) exactly when it declares the Inline variant and its
instance implements `render`, `surround` and `checkState`; in particular an
Inline-declared tool missing one of them is excluded from `inline` while
remaining in `available`. -/
theorem c3_inline_view (s : ToolsState) (hc : s.inlineToolsCache = none)
    (n : String) (t : ToolClass) (hmem : (n, t) ∈ s.toolsAvailable) :
    ((n, t) ∈ (Tools.inline s).1.entries ↔
      (t.type = ToolType.Inline ∧ t.hasRender = true ∧ t.hasSurround = true ∧
       t.hasCheckState = true)) := by
  have hentries : (Tools.inline s).1.entries = computeInlineEntries s.toolsAvailable := by
    simp [Tools.inline, hc]
  rw [hentries, computeInlineEntries]
  simp [List.mem_filter, hmem, isValidInlineTool_iff]

/-- A tool declaring the Inline variant but not implementing `checkState`. -/
def inlineNoCheckState : ToolClass :=
  ⟨"fakeInline", .Inline, false, true, true, false, false⟩

/-- Registry state holding only `inlineNoCheckState` in `available`. -/
def inlineDemoState : ToolsState :=
  { initState with toolsAvailable := [("fakeInline", inlineNoCheckState)] }

/-- Witness for C3: instantiating the equivalence at the available tool that
declares Inline but lacks `checkState` (the right-hand side is false there,
so the tool is not in the inline view even though it is available). -/
theorem c3_inline_view_witness :
    (("fakeInline", inlineNoCheckState) ∈ (Tools.inline inlineDemoState).1.entries ↔
      (inlineNoCheckState.type = ToolType.Inline ∧ inlineNoCheckState.hasRender = true ∧
       inlineNoCheckState.hasSurround = true ∧ inlineNoCheckState.hasCheckState = true)) :=
  c3_inline_view inlineDemoState rfl "fakeInline" inlineNoCheckState (by decide)

/-! ### validateTools -/

theorem validateTools_cons_valid (n : String) (v : ToolConfigValue)
    (rest : List (String × ToolConfigValue))
    (hn : isInternalToolName n = false) (hv : validEntry v = true) :
    Tools.validateTools ((n, v) :: rest) = Tools.validateTools rest := by
  have hcond : (!jsIsFunction v && !classFieldIsFunction v) = false := by
    rw [← Bool.not_or]
    rw [validEntry] at hv
    rw [hv]
    rfl
  simp [Tools.validateTools, hn, hcond]

/-- C5: `validateTools` (a) throws a configuration error naming the
offending tool at the first non-built-in entry that is neither an invocable
constructor nor an object with an invocable `class`, provided every earlier
entry was a valid non-built-in one, and (b) returns successfully — without
checking any of the remaining entries, valid or not — as soon as the first
entry whose name matches a built-in is reached. -/
theorem c5_validateTools_quirk :
    (∀ (pre rest : List (String × ToolConfigValue)) (n : String) (v : ToolConfigValue),
      (∀ e ∈ pre, isInternalToolName e.1 = false ∧ validEntry e.2 = true) →
      isInternalToolName n = false → validEntry v = false →
      Tools.validateTools (pre ++ (n, v) :: rest) = .error (.invalidTool n)) ∧
    (∀ (pre rest : List (String × ToolConfigValue)) (b : String) (vb : ToolConfigValue),
      (∀ e ∈ pre, isInternalToolName e.1 = false ∧ validEntry e.2 = true) →
      isInternalToolName b = true →
      Tools.validateTools (pre ++ (b, vb) :: rest) = .ok ()) := by
  constructor
  · intro pre rest n v
    induction pre with
    | nil =>
      intro _ hn hv
      have hcond : (!jsIsFunction v && !classFieldIsFunction v) = true := by
        rw [← Bool.not_or]
        rw [validEntry] at hv
        rw [hv]
        rfl
      simp [Tools.validateTools, hn, hcond]
    | cons e pre0 ih =>
      intro hpre hn hv
      obtain ⟨en, ev⟩ := e
      rw [List.cons_append,
        validateTools_cons_valid en ev _ (hpre (en, ev) (List.mem_cons_self _ _)).1
          (hpre (en, ev) (List.mem_cons_self _ _)).2]
      exact ih (fun x hx => hpre x (List.mem_cons_of_mem _ hx)) hn hv
  · intro pre rest b vb
    induction pre with
    | nil =>
      intro _ hb
      simp [Tools.validateTools, hb]
    | cons e pre0 ih =>
      intro hpre hb
      obtain ⟨en, ev⟩ := e
      rw [List.cons_append,
        validateTools_cons_valid en ev _ (hpre (en, ev) (List.mem_cons_self _ _)).1
          (hpre (en, ev) (List.mem_cons_self _ _)).2]
      exact ih (fun x hx => hpre x (List.mem_cons_of_mem _ hx)) hb

/-- Witness for C5: a lone invalid entry is rejected with an error naming
it, while the same invalid entry placed after a built-in name slips through,
because validation returns at `bold`. -/
theorem c5_validateTools_quirk_witness :
    Tools.validateTools [("badTool", .obj .missing none)] =
      .error (.invalidTool "badTool") ∧
    Tools.validateTools
      [("bold", .obj .missing none), ("badTool", .obj .missing none)] = .ok () :=
  ⟨c5_validateTools_quirk.1 [] [] "badTool" (.obj .missing none)
      (by intro e he; cases he) (by decide) (by decide),
   c5_validateTools_quirk.2 [] [("badTool", .obj .missing none)] "bold"
      (.obj .missing none) (by intro e he; cases he) (by decide)⟩

/-! ### Staleness of the view caches across prepare() -/

theorem prepare_ok_caches (u : List (String × ToolConfigValue)) (s s1 : ToolsState)
    (h : Tools.prepare u s = .ok s1) :
    s1.inlineToolsCache = s.inlineToolsCache ∧
    s1.blockToolsCache = s.blockToolsCache := by
  obtain ⟨tasks, _, _, hs1⟩ := prepare_ok_inversion u s s1 h
  rw [hs1]
  exact ⟨(sequence_preserves tasks _).1, (sequence_preserves tasks _).2.1⟩

theorem inline_cache_after (s : ToolsState) :
    (Tools.inline s).2.inlineToolsCache = some (Tools.inline s).1 := by
  cases hc : s.inlineToolsCache <;> simp [Tools.inline, hc]

theorem block_cache_after (s : ToolsState) :
    (Tools.block s).2.blockToolsCache = some (Tools.block s).1 := by
  cases hc : s.blockToolsCache <;> simp [Tools.block, hc]

theorem inline_of_cache_some (s : ToolsState) (m : ViewMap)
    (h : s.inlineToolsCache = some m) : Tools.inline s = (m, s) := by
  simp [Tools.inline, h]

theorem block_of_cache_some (s : ToolsState) (m : ViewMap)
    (h : s.blockToolsCache = some m) : Tools.block s = (m, s) := by
  simp [Tools.block, h]

theorem inline_entries_of_none (s : ToolsState) (hc : s.inlineToolsCache = none) :
    (Tools.inline s).1.entries = computeInlineEntries s.toolsAvailable := by
  simp [Tools.inline, hc]

theorem block_entries_of_none (s : ToolsState) (hc : s.blockToolsCache = none) :
    (Tools.block s).1.entries = computeBlockEntries s.toolsAvailable := by
  simp [Tools.block, hc]

/-- C10: if `inline` (respectively `block`) is first read while `available`
is empty — before `prepare()` has populated it — the resulting empty map is
cached, and after any later successful `prepare()` (which fills `available`
but never touches the caches) the getter still returns that same stale
empty map. -/
theorem c10_stale_empty_views (s : ToolsState)
    (hci : s.inlineToolsCache = none) (hcb : s.blockToolsCache = none)
    (hav : s.toolsAvailable = [])
    (u : List (String × ToolConfigValue)) (s2 s3 : ToolsState)
    (hp2 : Tools.prepare u (Tools.inline s).2 = .ok s2)
    (hp3 : Tools.prepare u (Tools.block s).2 = .ok s3) :
    (Tools.inline s2).1 = (Tools.inline s).1 ∧ (Tools.inline s).1.entries = [] ∧
    (Tools.block s3).1 = (Tools.block s).1 ∧ (Tools.block s).1.entries = [] := by
  have h2 := inline_of_cache_some s2 (Tools.inline s).1
    (by rw [(prepare_ok_caches u _ s2 hp2).1, inline_cache_after])
  have h3 := block_of_cache_some s3 (Tools.block s).1
    (by rw [(prepare_ok_caches u _ s3 hp3).2, block_cache_after])
  refine ⟨by rw [h2], ?_, by rw [h3], ?_⟩
  · rw [inline_entries_of_none s hci, hav]; rfl
  · rw [block_entries_of_none s hcb, hav]; rfl

/-- State after preparing the built-ins on a module whose `inline` view was
already read (and hence cached empty). -/
def staleInlineState : ToolsState :=
  (Tools.prepare [] (Tools.inline initState).2).toOption.getD initState

/-- State after preparing the built-ins on a module whose `block` view was
already read (and hence cached empty). -/
def staleBlockState : ToolsState :=
  (Tools.prepare [] (Tools.block initState).2).toOption.getD initState

/-- Witness for C10: reading the views on the fresh empty module and then
running the (built-in-only) preparation leaves both getters returning the
cached empty map, although `available` then holds inline and block tools. -/
theorem c10_stale_empty_views_witness :
    (Tools.inline staleInlineState).1 = (Tools.inline initState).1 ∧
    (Tools.inline initState).1.entries = [] ∧
    (Tools.block staleBlockState).1 = (Tools.block initState).1 ∧
    (Tools.block initState).1.entries = [] :=
  c10_stale_empty_views initState rfl rfl rfl [] staleInlineState staleBlockState
    (by rfl) (by rfl)

/-! ### Containment of per-tool preparation failure -/

theorem mapHas_internal_eq (n : String) :
    mapHas internalTools n = isInternalToolName n := rfl

theorem not_internal_ne (n : String) (h : isInternalToolName n = false) :
    n ≠ "bold" ∧ n ≠ "italic" ∧ n ≠ "link" ∧ n ≠ "paragraph" ∧ n ≠ "stub" := by
  have h2 := (isInternalToolName_false_iff n).mp h
  simp at h2
  exact h2

theorem hookSucceeds_boldClass : hookSucceeds boldClass = true := rfl

theorem hookSucceeds_italicClass : hookSucceeds italicClass = true := rfl

theorem hookSucceeds_linkClass : hookSucceeds linkClass = true := rfl

theorem hookSucceeds_paragraphClass : hookSucceeds paragraphClass = true := rfl

theorem hookSucceeds_stubClass : hookSucceeds stubClass = true := rfl

/-- C2: for tools A, B, C configured in that insertion order — non-built-in
names, invocable classes — where B's prepare hook throws or rejects while
A's and C's tasks settle successfully, the failure of B is contained:
`prepare()` resolves (it does not reject because of B), B is routed by
`onFailure` into `unavailable` only, C's hook still runs and C is bucketed
into `available`, and A's success still places it in `available`. -/
theorem c2_failure_contained (nA nB nC : String) (ca cb cc : PluginClass)
    (hA : isInternalToolName nA = false) (hB : isInternalToolName nB = false)
    (hC : isInternalToolName nC = false)
    (hAB : nA ≠ nB) (hAC : nA ≠ nC) (hBC : nB ≠ nC)
    (ha : hookSucceeds ca = true) (hb : cb.prepareHook = some false)
    (hc : hookSucceeds cc = true) :
    ∃ s1,
      Tools.prepare [(nA, .ctor ca), (nB, .ctor cb), (nC, .ctor cc)] initState =
        .ok s1 ∧
      mapHas s1.toolsAvailable nA = true ∧ mapHas s1.toolsUnavailable nA = false ∧
      mapHas s1.toolsUnavailable nB = true ∧ mapHas s1.toolsAvailable nB = false ∧
      mapHas s1.toolsAvailable nC = true ∧ mapHas s1.toolsUnavailable nC = false := by
  have hb' : hookSucceeds cb = false := by rw [hookSucceeds, hb]
  obtain ⟨hA1, hA2, hA3, hA4, hA5⟩ := not_internal_ne nA hA
  obtain ⟨hB1, hB2, hB3, hB4, hB5⟩ := not_internal_ne nB hB
  obtain ⟨hC1, hC2, hC3, hC4, hC5⟩ := not_internal_ne nC hC
  have hval : Tools.validateTools
      [(nA, .ctor ca), (nB, .ctor cb), (nC, .ctor cc)] = .ok () := by
    simp [Tools.validateTools, hA, hB, hC, jsIsFunction]
  have hmerged : deepMergeTools internalTools
      [(nA, .ctor ca), (nB, .ctor cb), (nC, .ctor cc)] =
      internalTools ++ [(nA, .ctor ca), (nB, .ctor cb), (nC, .ctor cc)] := by
    rw [deepMergeTools]
    congr 1
    · simp [internalTools, mapGet, hA1, hA2, hA3, hA4, hA5,
        hB1, hB2, hB3, hB4, hB5, hC1, hC2, hC3, hC4, hC5]
    · simp [List.filter, mapHas_internal_eq, hA, hB, hC]
  have hcompute : Tools.getListOfPrepareFunctions (Tools.prepareConfig
      (internalTools ++ [(nA, .ctor ca), (nB, .ctor cb), (nC, .ctor cc)])) =
      .ok [⟨"bold", true⟩, ⟨"italic", true⟩, ⟨"link", true⟩, ⟨"paragraph", true⟩,
           ⟨"stub", true⟩, ⟨nA, true⟩, ⟨nB, false⟩, ⟨nC, true⟩] := by
    simp [Tools.prepareConfig, Tools.getListOfPrepareFunctions, internalTools,
      hookSucceeds_boldClass, hookSucceeds_italicClass, hookSucceeds_linkClass,
      hookSucceeds_paragraphClass, hookSucceeds_stubClass, ha, hb', hc]
  have hprep : Tools.prepare
      [(nA, .ctor ca), (nB, .ctor cb), (nC, .ctor cc)] initState =
      .ok (Tools.sequence
        [⟨"bold", true⟩, ⟨"italic", true⟩, ⟨"link", true⟩, ⟨"paragraph", true⟩,
         ⟨"stub", true⟩, ⟨nA, true⟩, ⟨nB, false⟩, ⟨nC, true⟩]
        ⟨[], [], none, none,
         Tools.prepareConfig
           (internalTools ++ [(nA, .ctor ca), (nB, .ctor cb), (nC, .ctor cc)]),
         0⟩) := by
    rw [Tools.prepare, hval]
    simp only []
    rw [hmerged, hcompute]
    simp [internalTools, initState]
  have hnodup : (([⟨"bold", true⟩, ⟨"italic", true⟩, ⟨"link", true⟩,
      ⟨"paragraph", true⟩, ⟨"stub", true⟩, ⟨nA, true⟩, ⟨nB, false⟩,
      ⟨nC, true⟩] : List PrepareTask).map PrepareTask.toolName).Nodup := by
    simp [List.nodup_cons, Ne.symm hA1, Ne.symm hA2, Ne.symm hA3, Ne.symm hA4,
      Ne.symm hA5, Ne.symm hB1, Ne.symm hB2, Ne.symm hB3, Ne.symm hB4, Ne.symm hB5,
      Ne.symm hC1, Ne.symm hC2, Ne.symm hC3, Ne.symm hC4, Ne.symm hC5,
      hAB, hAC, hBC]
  have hseq := fun (t : PrepareTask)
    (hm : t ∈ ([⟨"bold", true⟩, ⟨"italic", true⟩, ⟨"link", true⟩,
      ⟨"paragraph", true⟩, ⟨"stub", true⟩, ⟨nA, true⟩, ⟨nB, false⟩,
      ⟨nC, true⟩] : List PrepareTask)) =>
    sequence_buckets
      [⟨"bold", true⟩, ⟨"italic", true⟩, ⟨"link", true⟩, ⟨"paragraph", true⟩,
       ⟨"stub", true⟩, ⟨nA, true⟩, ⟨nB, false⟩, ⟨nC, true⟩]
      ⟨[], [], none, none,
       Tools.prepareConfig
         (internalTools ++ [(nA, .ctor ca), (nB, .ctor cb), (nC, .ctor cc)]),
       0⟩
      t hnodup hm
  refine ⟨_, hprep, ?_, ?_, ?_, ?_, ?_, ?_⟩
  · exact ((hseq ⟨nA, true⟩ (by simp)).1).trans (by rfl)
  · exact ((hseq ⟨nA, true⟩ (by simp)).2).trans (by rfl)
  · exact ((hseq ⟨nB, false⟩ (by simp)).2).trans (by rfl)
  · exact ((hseq ⟨nB, false⟩ (by simp)).1).trans (by rfl)
  · exact ((hseq ⟨nC, true⟩ (by simp)).1).trans (by rfl)
  · exact ((hseq ⟨nC, true⟩ (by simp)).2).trans (by rfl)

/-- A plugin class whose prepare hook resolves. -/
def demoHookOk : PluginClass := ⟨.Block, true, false, false, false, some true⟩

/-- A plugin class whose prepare hook throws/rejects. -/
def demoHookBad : PluginClass := ⟨.Block, true, false, false, false, some false⟩

/-- A plugin class with no prepare hook (the no-op stand-in always succeeds). -/
def demoNoHook : PluginClass := ⟨.Block, true, false, false, false, none⟩

/-- Witness for C2: tools `alpha`, `beta`, `gamma` in that order with
`beta`'s hook failing — the run resolves, `beta` lands in unavailable,
`alpha` and `gamma` in available. -/
theorem c2_failure_contained_witness :
    ∃ s1,
      Tools.prepare [("alpha", .ctor demoNoHook), ("beta", .ctor demoHookBad),
        ("gamma", .ctor demoHookOk)] initState = .ok s1 ∧
      mapHas s1.toolsAvailable "alpha" = true ∧
      mapHas s1.toolsUnavailable "alpha" = false ∧
      mapHas s1.toolsUnavailable "beta" = true ∧
      mapHas s1.toolsAvailable "beta" = false ∧
      mapHas s1.toolsAvailable "gamma" = true ∧
      mapHas s1.toolsUnavailable "gamma" = false :=
  c2_failure_contained "alpha" "beta" "gamma" demoNoHook demoHookBad demoHookOk
    (by decide) (by decide) (by decide) (by decide) (by decide) (by decide)
    rfl rfl rfl

end EditorTools
